import Mathlib

/-
Verification of the lineage classification engine in
`src/data/genomics/tuberculosis/genome/varpipe/scripts/lineage_parser.py`.

The Python source is shallowly embedded below: each nested helper of
`parse_lineage` becomes a Lean function of the same name, the mutable
accumulator lists become explicit state, Python dictionaries become lookup
functions, and a Python run that raises an exception (IndexError, KeyError)
is modelled as `none` of an `Option` result.  Strings are modelled as Lean
`String`s, with `str.split(".")` embedded as a structural character-level
split so that all definitions evaluate by kernel reduction.
-/

namespace LineageParser

/-- One row of the lineage marker reference table (`lineage_marker_file`):
genomic position, the `##Lineage` label column, and the expected
alternate allele `Alt`. -/
structure Marker where
  position : String
  lineage : String
  alt : String
deriving DecidableEq

/-- One row of the per-sample variant table (`annotation_file`):
observed position `POS` and observed alternate allele `ALT`. -/
structure Variant where
  pos : String
  alt : String
deriving DecidableEq

/-- The tag-presence set derived from `snp_tags`: which of the six special
positions occur among the observed variant positions.  A Python `set` over
the six possible tag strings is exactly a sextuple of booleans. -/
structure Tags where
  linfour : Bool
  hrv37 : Bool
  bcg : Bool
  bov : Bool
  oryx : Bool
  cap : Bool
deriving DecidableEq

/-- The `tribe_map` dictionary: lineage number to display name, entries
numbered 1 to 7; `none` models a Python `KeyError` on any other key. -/
def tribe_map : String → Option String
  | "1" => some "Indo-Oceanic"
  | "2" => some "East-Asian"
  | "3" => some "East-African-Indian"
  | "4" => some "Euro-American"
  | "5" => some "West-Africa 1"
  | "6" => some "West-Africa 2"
  | "7" => some "Ethiopian"
  | _ => none

/-- The `snp_tags` dictionary mapping the six special positions to their
tag names. -/
def snp_tags : String → Option String
  | "931123" => some "linfour"
  | "1759252" => some "hrv37"
  | "2831482" => some "CAP"
  | "2289073" => some "BOV"
  | "8624" => some "BCG"
  | "2726378" => some "ORYX"
  | _ => none

/-- `tags = {snp_tags[pos] for pos in snps if pos in snp_tags}`: tag
membership is a pure position-membership test over the variant rows,
independent of the marker table and of allele matching. -/
def computeTags (snpData : List Variant) : Tags where
  linfour := snpData.any fun s => snp_tags s.pos == some "linfour"
  hrv37 := snpData.any fun s => snp_tags s.pos == some "hrv37"
  bcg := snpData.any fun s => snp_tags s.pos == some "BCG"
  bov := snpData.any fun s => snp_tags s.pos == some "BOV"
  oryx := snpData.any fun s => snp_tags s.pos == some "ORYX"
  cap := snpData.any fun s => snp_tags s.pos == some "CAP"

/-- `animals = any(tag in tags for tag in animal_map)`. -/
def animalsOf (t : Tags) : Bool :=
  t.bcg || t.bov || t.oryx || t.cap

/-- The narrative header lines appended before evidence extraction:
`for tag, (short_species, species) in animal_map.items(): if tag in tags:
text_report.append(f"SNP {tag_snps[tag]} suggests {species}")`, in the
fixed `animal_map` insertion order BCG, BOV, ORYX, CAP. -/
def animalHeaderLines (t : Tags) : List String :=
  (if t.bcg then ["SNP 8624 suggests M. bovis-BCG"] else []) ++
    (if t.bov then ["SNP 2289073 suggests M. bovis"] else []) ++
    (if t.oryx then ["SNP 2726378 suggests M. orygis"] else []) ++
    (if t.cap then ["SNP 2831482 suggests M. caprae"] else [])

/-- The `position_map` dictionary comprehension
`{marker["Position"]: marker for marker in marker_parser}`: membership and
lookup with last-write-wins on duplicate positions. -/
def positionLookup (markers : List Marker) (p : String) : Option Marker :=
  (markers.filter fun m => m.position == p).getLast?

/-- Character-level worker for `str.split(".")`. -/
def splitDotAux : List Char → List Char → List String
  | [], acc => [String.mk acc.reverse]
  | c :: rest, acc =>
    if c = '.' then String.mk acc.reverse :: splitDotAux rest []
    else splitDotAux rest (c :: acc)

/-- Embedding of Python `s.split(".")`: e.g. `"4.3.1"` splits to
`["4", "3", "1"]` and `""` splits to `[""]`. -/
def splitDot (s : String) : List String :=
  splitDotAux s.toList []

/-- Python `max(l, key=len)` on a nonempty list: the first element of
maximal length (`max` keeps the incumbent unless a later element is
strictly longer). An empty list yields `""` (never reached by the code,
which calls `max` only immediately after an append). -/
def maxByLen : List String → String
  | [] => ""
  | x :: xs => xs.foldl (fun acc y => if acc.length < y.length then y else acc) x

/-- First dot-separated component of a label. -/
def firstComp (s : String) : String :=
  (splitDot s).headI

/-- The four accumulators of `_get_lineage_detail`: the running deepest
sublineage candidate `sublin`, the lineage labels `prevlin`, the
sublineage labels `prevsub`, and the narrative lines `text`. -/
structure Detail where
  sublin : String
  prevlin : List String
  prevsub : List String
  text : List String
deriving DecidableEq

/-- One iteration of the loop in `_get_lineage_detail`: if the variant's
position has a marker and the observed allele equals the marker's `Alt`,
record the label as sublineage evidence when its character length exceeds
one (`len(lineage) > 1`), else as lineage evidence, appending the matching
narrative line; otherwise leave the state unchanged. -/
def detailStep (markers : List Marker) (d : Detail) (snp : Variant) : Detail :=
  match positionLookup markers snp.pos with
  | none => d
  | some m =>
    if m.alt == snp.alt then
      if 1 < m.lineage.length then
        let prevsub := d.prevsub ++ [m.lineage]
        { sublin := maxByLen prevsub
          prevlin := d.prevlin
          prevsub := prevsub
          text := d.text ++ [s!"SNP {snp.pos} suggests sub-lineage: {m.lineage}"] }
      else
        { d with
            prevlin := d.prevlin ++ [m.lineage]
            text := d.text ++ [s!"SNP {snp.pos} suggests lineage: {m.lineage}"] }
    else d

/-- `_get_lineage_detail`: fold the step over the variant rows in table
order, starting from empty accumulators. -/
def getLineageDetail (markers : List Marker) (snpData : List Variant) : Detail :=
  snpData.foldl (detailStep markers) ⟨"", [], [], []⟩

/-- The per-pair comparison inside `_check_discordance`:
`split_lin[0] != split_first[0] or split_lin[1] != split_first[1]`, with
Python's evaluation order: the index-1 accesses happen only when the first
components are equal, and `none` models the `IndexError` raised when a
needed component is missing. -/
def pair_discordant (split_lin split_first : List String) : Option Bool :=
  match split_lin, split_first with
  | a :: restl, c :: restf =>
    if a ≠ c then some true
    else
      match restl, restf with
      | b :: _, d :: _ => some (decide (b ≠ d))
      | _, _ => none
  | _, _ => none

/-- The `for sub in prevsub` loop of `_check_discordance`, breaking at the
first discordant label. -/
def discord_loop (split_first : List String) : List String → Option Bool
  | [] => some false
  | sub :: rest =>
    match pair_discordant (splitDot sub) split_first with
    | none => none
    | some true => some true
    | some false => discord_loop split_first rest

/-- `_check_discordance`: split the deepest candidate and compare every
sublineage label against it on the first two components, returning the
discordance flag together with the split candidate. -/
def check_discordance (sublin : String) (prevsub : List String) :
    Option (Bool × List String) :=
  let split_first := splitDot sublin
  match discord_loop split_first prevsub with
  | none => none
  | some b => some (b, split_first)

/-- `_check_sublin_discordance`: for each sublineage label, compare its
first component against `prevlin[0]` and against `split_first[0]` (first
components only), breaking at the first mismatch. -/
def check_sublin_discordance (prevlin split_first : List String) :
    List String → Option Bool
  | [] => some false
  | sub :: rest =>
    match (splitDot sub)[0]?, prevlin[0]? with
    | some a, some p =>
      if a ≠ p then some true
      else
        match split_first[0]? with
        | some f =>
          if a ≠ f then some true
          else check_sublin_discordance prevlin split_first rest
        | none => none
    | _, _ => none

/-- `_check_multiple_discordance`:
`any(prevlin[0] != lin for lin in prevlin)`; the lazy generator never
touches `prevlin[0]` when `prevlin` is empty. -/
def check_multiple_discordance : List String → Bool
  | [] => false
  | p0 :: rest => (p0 :: rest).any fun lin => p0 != lin

/-- `_report_mixed_lineage`: the narrative line and the indeterminate
verdict row. Pairs below are (appended tsv rows, appended text lines). -/
def report_mixed_lineage (sampleId : String) :
    List (List String) × List String :=
  ([[sampleId, "mixed lineage(s)", "mixed lineage(s)"]],
    ["no precise lineage inferred"])

/-- `_report_tribe(tribe)`: on discordance or any animal tag report mixed;
otherwise report `tribe` through `tribe_map` (`none` models the `KeyError`
on an unmapped key) with the tsv lineage code taken from
`split_first[0]`. -/
def report_tribe (sampleId tribe : String) (discordance animals : Bool)
    (split_first : List String) : Option (List (List String) × List String) :=
  if discordance || animals then some (report_mixed_lineage sampleId)
  else
    match tribe_map tribe with
    | none => none
    | some name =>
      match split_first[0]? with
      | none => none
      | some f0 => some ([[sampleId, f0, name]], [s!"Lineage: {tribe} {name}"])

/-- `_report_linfour`: with an animal tag report mixed; otherwise the
absence-based lineage-4 verdict, with the 4.9 note only when the `hrv37`
tag is absent. -/
def report_linfour (sampleId : String) (animals hrv37 : Bool) :
    List (List String) × List String :=
  if animals then report_mixed_lineage sampleId
  else
    ([[sampleId, "4", "Euro-American"]],
      ["Absence of SNP 931123 suggests lineage 4"] ++
        (if hrv37 then [] else ["Absence of SNP 1759252 suggests sublineage 4.9"]) ++
        ["Lineage: 4 Euro-American"])

/-- `_report_animals`: report the first present animal tag in the fixed
`animal_map` order, else the explicit no-informative-markers verdict. -/
def report_animals (sampleId : String) (t : Tags) :
    List (List String) × List String :=
  if t.bcg then ([[sampleId, "Bovis-BCG", "M. bovis-BCG"]], ["Lineage: Bovis-BCG"])
  else if t.bov then ([[sampleId, "Bovis", "M. bovis"]], ["Lineage: Bovis"])
  else if t.oryx then ([[sampleId, "Oryx", "M. orygis"]], ["Lineage: Oryx"])
  else if t.cap then ([[sampleId, "Caprae", "M. caprae"]], ["Lineage: Caprae"])
  else
    ([[sampleId, "No Informative SNPs detected", "No Informative SNPs detected"]],
      ["No Informative SNPs detected"])

/-- `_report_prevlin`: report `prevlin[0]` through `tribe_map`; `none`
models the `IndexError`/`KeyError` failure modes. -/
def report_prevlin (sampleId : String) (prevlin : List String) :
    Option (List (List String) × List String) :=
  match prevlin[0]? with
  | none => none
  | some lin =>
    match tribe_map lin with
    | none => none
    | some name => some ([[sampleId, lin, name]], [s!"Lineage: {lin} {name}"])

/-- `_report_multiple_prevlin`: on multiple-lineage discordance emit the
indeterminate verdict with its distinct narrative line, otherwise defer to
`_report_prevlin`. -/
def report_multiple_prevlin (sampleId : String) (discordance : Bool)
    (prevlin : List String) : Option (List (List String) × List String) :=
  if discordance then
    some ([[sampleId, "mixed lineage(s)", "mixed lineage(s)"]],
      ["no concordance between predicted lineage and sublineage(s)"])
  else report_prevlin sampleId prevlin

/-- The precedence resolver: lines 160 to 178 of `parse_lineage`,
dispatching on the shape of the collected evidence.  Mirrors
`split_first = sublin.split(".") if prevsub and sublin else ["NA"]` and
the `if not prevlin / elif len(prevlin) == 1 / else` chain. -/
def resolve (sampleId sublin : String) (prevlin prevsub : List String)
    (t : Tags) : Option (List (List String) × List String) :=
  let split_first := if prevsub ≠ [] ∧ sublin ≠ "" then splitDot sublin else ["NA"]
  let animals := animalsOf t
  match prevlin with
  | [] =>
    match check_discordance sublin prevsub with
    | none => none
    | some (discordance, sf) =>
      if 1 < sf.length then
        match sf[0]? with
        | none => none
        | some tribe => report_tribe sampleId tribe discordance animals sf
      else if !t.linfour then some (report_linfour sampleId animals t.hrv37)
      else some (report_animals sampleId t)
  | [lab] =>
    if sublin ≠ "" then
      match check_sublin_discordance [lab] split_first prevsub with
      | none => none
      | some discordance =>
        report_tribe sampleId lab discordance animals split_first
    else report_prevlin sampleId [lab]
  | lab :: l2 :: rest =>
    report_multiple_prevlin sampleId
      (check_multiple_discordance (lab :: l2 :: rest)) (lab :: l2 :: rest)

/-- `parse_lineage`: the whole classification run on in-memory tables,
returning the tsv report (header row plus appended verdict rows) and the
narrative text report, or `none` when the Python code would raise. -/
def parse_lineage (markers : List Marker) (snpData : List Variant)
    (sampleId : String) : Option (List (List String) × List String) :=
  let t := computeTags snpData
  let d := getLineageDetail markers snpData
  match resolve sampleId d.sublin d.prevlin d.prevsub t with
  | none => none
  | some (rows, rtext) =>
    some (["Sample ID", "Lineage", "Lineage Name"] :: rows,
      animalHeaderLines t ++ d.text ++ rtext)

/-- The single verdict record of a run: the row after the header. -/
def verdictOf (markers : List Marker) (snpData : List Variant)
    (sampleId : String) : Option (List String) :=
  (parse_lineage markers snpData sampleId).bind fun p => p.1[1]?

/-- The narrative report of a run. -/
def textOf (markers : List Marker) (snpData : List Variant)
    (sampleId : String) : Option (List String) :=
  (parse_lineage markers snpData sampleId).map Prod.snd

/-- Serialization of the tsv report as written by `csv.writer` with the
excel-tab dialect and `lineterminator="\n"`. -/
def renderTsv (rows : List (List String)) : String :=
  String.intercalate "\n" (rows.map (String.intercalate "\t")) ++ "\n"

/-- Serialization of the narrative report as written by
`print("\n".join(text_report), file=handle)`. -/
def renderText (lines : List String) : String :=
  String.intercalate "\n" lines ++ "\n"

/-- The empty tag-presence set. -/
def noTags : Tags :=
  ⟨false, false, false, false, false, false⟩

/-- `splitDotAux` always produces at least one field. -/
theorem splitDotAux_ne_nil (l acc : List Char) : splitDotAux l acc ≠ [] := by
  induction l generalizing acc with
  | nil => simp [splitDotAux]
  | cons c rest ih =>
    by_cases h : c = '.'
    · simp [splitDotAux, h]
    · simpa [splitDotAux, h] using ih (c :: acc)

/-- `s.split(".")` always produces at least one field. -/
theorem splitDot_ne_nil (s : String) : splitDot s ≠ [] :=
  splitDotAux_ne_nil s.toList []

/-- Index 0 of a nonempty list is its first element. -/
theorem get0_of_ne_nil (l : List String) (h : l ≠ []) : l[0]? = some l.headI := by
  cases l with
  | nil => exact absurd rfl h
  | cons a t => simp

/-- The first-longest element chosen by `maxByLen` is a member of the
(nonempty) list. -/
theorem maxByLen_mem (l : List String) (h : l ≠ []) : maxByLen l ∈ l := by
  cases l with
  | nil => exact absurd rfl h
  | cons x xs =>
    show xs.foldl (fun acc y => if acc.length < y.length then y else acc) x ∈ x :: xs
    clear h
    induction xs generalizing x with
    | nil => simp
    | cons y ys ih =>
      rw [List.foldl_cons]
      by_cases hxy : x.length < y.length
      · rw [if_pos hxy]
        exact List.mem_cons_of_mem x (ih y)
      · rw [if_neg hxy]
        rcases List.mem_cons.mp (ih x) with h | h
        · rw [h]
          exact List.mem_cons_self _ _
        · exact List.mem_cons_of_mem x (List.mem_cons_of_mem y h)

/-- Invariants maintained by `_get_lineage_detail`: the deepest candidate
is `max(prevsub, key=len)`, every sublineage label has character length
above one, every lineage label has character length at most one, and each
narrative line corresponds to exactly one collected label. -/
def DetailOK (d : Detail) : Prop :=
  d.sublin = maxByLen d.prevsub ∧
    (∀ s ∈ d.prevsub, 1 < s.length) ∧
    (∀ s ∈ d.prevlin, s.length ≤ 1) ∧
    d.text.length = d.prevlin.length + d.prevsub.length

theorem detailStep_ok (markers : List Marker) (d : Detail) (v : Variant)
    (h : DetailOK d) : DetailOK (detailStep markers d v) := by
  obtain ⟨h1, h2, h3, h4⟩ := h
  unfold detailStep
  cases positionLookup markers v.pos with
  | none => exact ⟨h1, h2, h3, h4⟩
  | some m =>
    by_cases halt : (m.alt == v.alt) = true
    · simp only [halt, if_true]
      by_cases hlen : 1 < m.lineage.length
      · simp only [hlen, if_true]
        refine ⟨rfl, ?_, h3, ?_⟩
        · intro s hs
          rcases List.mem_append.mp hs with hs | hs
          · exact h2 s hs
          · simpa using List.mem_singleton.mp hs ▸ hlen
        · simp [h4]; omega
      · simp only [hlen, if_false]
        refine ⟨h1, h2, ?_, ?_⟩
        · intro s hs
          rcases List.mem_append.mp hs with hs | hs
          · exact h3 s hs
          · have := List.mem_singleton.mp hs
            subst this
            omega
        · simp [h4]; omega
    · simp only [halt, if_false]
      exact ⟨h1, h2, h3, h4⟩

theorem foldl_detail_ok (markers : List Marker) (snps : List Variant)
    (d : Detail) (h : DetailOK d) :
    DetailOK (snps.foldl (detailStep markers) d) := by
  induction snps generalizing d with
  | nil => exact h
  | cons v rest ih => exact ih _ (detailStep_ok markers d v h)

/-- The extraction invariants hold for every run. -/
theorem getLineageDetail_ok (markers : List Marker) (snps : List Variant) :
    DetailOK (getLineageDetail markers snps) := by
  refine foldl_detail_ok markers snps _ ⟨rfl, ?_, ?_, rfl⟩ <;> simp

/-- When no variant position is present in the marker table, no evidence
and no narrative lines are collected. -/
theorem getLineageDetail_no_match (markers : List Marker) (snps : List Variant)
    (h : ∀ v ∈ snps, positionLookup markers v.pos = none) :
    getLineageDetail markers snps = ⟨"", [], [], []⟩ := by
  unfold getLineageDetail
  induction snps with
  | nil => rfl
  | cons v rest ih =>
    have hv : detailStep markers ⟨"", [], [], []⟩ v = ⟨"", [], [], []⟩ := by
      unfold detailStep
      rw [h v (List.mem_cons_self v rest)]
    rw [List.foldl_cons, hv]
    exact ih fun w hw => h w (List.mem_cons_of_mem v hw)

/-- Assembling the outputs of a run from the resolver's result. -/
theorem parse_lineage_eq (markers : List Marker) (snps : List Variant)
    (sid : String) (rows : List (List String)) (rtext : List String)
    (h : resolve sid (getLineageDetail markers snps).sublin
      (getLineageDetail markers snps).prevlin
      (getLineageDetail markers snps).prevsub (computeTags snps) =
        some (rows, rtext)) :
    parse_lineage markers snps sid =
      some (["Sample ID", "Lineage", "Lineage Name"] :: rows,
        animalHeaderLines (computeTags snps) ++
          (getLineageDetail markers snps).text ++ rtext) := by
  unfold parse_lineage
  simp only [h]

/-- With concordant evidence, `_check_sublin_discordance` reports no
discordance. -/
theorem check_sublin_false (lab : String) (split_first : List String)
    (subs : List String) (hf : split_first[0]? = some lab)
    (hsubs : ∀ s ∈ subs, (splitDot s)[0]? = some lab) :
    check_sublin_discordance [lab] split_first subs = some false := by
  induction subs with
  | nil => rfl
  | cons sub rest ih =>
    have hsub := hsubs sub (List.mem_cons_self sub rest)
    have hrest := ih fun s hs => hsubs s (List.mem_cons_of_mem sub hs)
    simp [check_sublin_discordance, hsub, hf, hrest]

/-- With some sublineage label whose first component differs from the
single lineage label, `_check_sublin_discordance` reports discordance. -/
theorem check_sublin_true (lab : String) (split_first : List String)
    (subs : List String) (hf : ∃ f, split_first[0]? = some f)
    (hex : ∃ s ∈ subs, firstComp s ≠ lab) :
    check_sublin_discordance [lab] split_first subs = some true := by
  obtain ⟨f, hf⟩ := hf
  induction subs with
  | nil => simp at hex
  | cons sub rest ih =>
    have h0 : (splitDot sub)[0]? = some (firstComp sub) :=
      get0_of_ne_nil _ (splitDot_ne_nil sub)
    by_cases hlab : firstComp sub = lab
    · rcases hex with ⟨s, hs, hne⟩
      rcases List.mem_cons.mp hs with rfl | hs
      · exact absurd hlab hne
      · by_cases hfe : firstComp sub = f
        · have hrest := ih ⟨s, hs, hne⟩
          simp [check_sublin_discordance, h0, hf, hlab, hfe, hrest]
        · simp only [check_sublin_discordance, h0, hf, List.getElem?_cons_zero]
          rw [if_neg (by simp [hlab]), if_pos (by simpa [hlab] using hfe)]
    · simp [check_sublin_discordance, h0, hlab]

/-- The resolver on the empty evidence shape: branch 1 falls through the
no-sublineage case. -/
theorem resolve_nil_nil (sid : String) (t : Tags) :
    resolve sid "" [] [] t =
      (if !t.linfour then some (report_linfour sid (animalsOf t) t.hrv37)
       else some (report_animals sid t)) := rfl

/-- The resolver on a single lineage label with no sublineage evidence
defers to `_report_prevlin`. -/
theorem resolve_single_nosub (sid lab : String) (t : Tags) :
    resolve sid "" [lab] [] t = report_prevlin sid [lab] := by
  simp [resolve]

/-- The resolver on a single lineage label with sublineage evidence:
`_check_sublin_discordance` then `_report_tribe(prevlin[0])`. -/
theorem resolve_single_sub (sid sublin lab p : String) (ps : List String)
    (t : Tags) (hs : sublin ≠ "") :
    resolve sid sublin [lab] (p :: ps) t =
      match check_sublin_discordance [lab] (splitDot sublin) (p :: ps) with
      | none => none
      | some disc => report_tribe sid lab disc (animalsOf t) (splitDot sublin) := by
  simp [resolve, hs]

/-- The resolver on two or more lineage labels:
`_check_multiple_discordance` then `_report_multiple_prevlin`. -/
theorem resolve_multi (sid sublin lab l2 : String)
    (rest prevsub : List String) (t : Tags) :
    resolve sid sublin (lab :: l2 :: rest) prevsub t =
      report_multiple_prevlin sid
        (check_multiple_discordance (lab :: l2 :: rest)) (lab :: l2 :: rest) := rfl

/-- Claim C2, counterexample: a variant table whose single position
matches no marker and carries no special tag.  The premise of the claim
holds, yet the verdict is the absence-inference "lineage 4 Euro-American"
call, not the "no informative markers" outcome the claim requires. -/
theorem C2_counterexample :
    (∀ v ∈ [Variant.mk "999" "T"],
      positionLookup [Marker.mk "100" "4" "A"] v.pos = none) ∧
    computeTags [Variant.mk "999" "T"] = noTags ∧
    verdictOf [Marker.mk "100" "4" "A"] [Variant.mk "999" "T"] "S" =
      some ["S", "4", "Euro-American"] ∧
    verdictOf [Marker.mk "100" "4" "A"] [Variant.mk "999" "T"] "S" ≠
      some ["S", "No Informative SNPs detected", "No Informative SNPs detected"] := by
  refine ⟨by decide, by decide, by decide, by decide⟩

/-- Claim C2, amended: when no variant position is present in the marker
table and no special tag is present, the verdict is the absence-inference
lineage-4 outcome ("4", "Euro-American"), and never the indeterminate
"mixed lineage(s)" outcome. -/
theorem C2_amended_no_match (markers : List Marker) (snps : List Variant)
    (sid : String)
    (hmatch : ∀ v ∈ snps, positionLookup markers v.pos = none)
    (htags : computeTags snps = noTags) :
    verdictOf markers snps sid = some [sid, "4", "Euro-American"] ∧
    verdictOf markers snps sid ≠
      some [sid, "mixed lineage(s)", "mixed lineage(s)"] := by
  have hd := getLineageDetail_no_match markers snps hmatch
  have hres : resolve sid (getLineageDetail markers snps).sublin
      (getLineageDetail markers snps).prevlin
      (getLineageDetail markers snps).prevsub (computeTags snps) =
      some ([[sid, "4", "Euro-American"]],
        ["Absence of SNP 931123 suggests lineage 4",
          "Absence of SNP 1759252 suggests sublineage 4.9",
          "Lineage: 4 Euro-American"]) := by
    rw [hd, htags]
    rfl
  have hp := parse_lineage_eq markers snps sid _ _ hres
  exact ⟨by simp [verdictOf, hp], by simp [verdictOf, hp]⟩

/-- Claim C2, witness for the amended theorem at a concrete input. -/
theorem C2_witness :
    verdictOf [Marker.mk "100" "4" "A"] [Variant.mk "999" "T"] "S" =
      some ["S", "4", "Euro-American"] ∧
    verdictOf [Marker.mk "100" "4" "A"] [Variant.mk "999" "T"] "S" ≠
      some ["S", "mixed lineage(s)", "mixed lineage(s)"] :=
  C2_amended_no_match [Marker.mk "100" "4" "A"] [Variant.mk "999" "T"] "S"
    (by decide) (by decide)

/-- Claim C8: with no lineage or sublineage evidence and the empty
tag-presence set (no animal tag, neither refinement position 931123 nor
1759252 observed), the verdict is lineage "4" "Euro-American" and the
narrative log consists of exactly the two absence-inference lines followed
by the final lineage statement. -/
theorem C8_absence_inference (markers : List Marker) (snps : List Variant)
    (sid : String)
    (hlin : (getLineageDetail markers snps).prevlin = [])
    (hsub : (getLineageDetail markers snps).prevsub = [])
    (htags : computeTags snps = noTags) :
    verdictOf markers snps sid = some [sid, "4", "Euro-American"] ∧
    textOf markers snps sid = some
      ["Absence of SNP 931123 suggests lineage 4",
        "Absence of SNP 1759252 suggests sublineage 4.9",
        "Lineage: 4 Euro-American"] := by
  have hok := getLineageDetail_ok markers snps
  have hsublin : (getLineageDetail markers snps).sublin = "" := by
    rw [hok.1, hsub]
    rfl
  have htext : (getLineageDetail markers snps).text = [] := by
    have hlen := hok.2.2.2
    rw [hlin, hsub] at hlen
    exact List.length_eq_zero.mp (by simpa using hlen)
  have hres : resolve sid (getLineageDetail markers snps).sublin
      (getLineageDetail markers snps).prevlin
      (getLineageDetail markers snps).prevsub (computeTags snps) =
      some ([[sid, "4", "Euro-American"]],
        ["Absence of SNP 931123 suggests lineage 4",
          "Absence of SNP 1759252 suggests sublineage 4.9",
          "Lineage: 4 Euro-American"]) := by
    rw [hsublin, hlin, hsub, htags]
    rfl
  have hp := parse_lineage_eq markers snps sid _ _ hres
  refine ⟨by simp [verdictOf, hp], ?_⟩
  simp [textOf, hp, htext, htags, animalHeaderLines, noTags]

/-- Claim C8, witness: absence markers 931123 and 1759252 in the marker
table, an empty variant table. -/
theorem C8_witness :
    verdictOf [Marker.mk "931123" "" "A", Marker.mk "1759252" "" "C"] [] "S" =
      some ["S", "4", "Euro-American"] ∧
    textOf [Marker.mk "931123" "" "A", Marker.mk "1759252" "" "C"] [] "S" = some
      ["Absence of SNP 931123 suggests lineage 4",
        "Absence of SNP 1759252 suggests sublineage 4.9",
        "Lineage: 4 Euro-American"] :=
  C8_absence_inference [Marker.mk "931123" "" "A", Marker.mk "1759252" "" "C"]
    [] "S" (by decide) (by decide) (by decide)

/-- Claim C9: with exactly one lineage label and no sublineage evidence,
the verdict is that label's code and display name whatever the
tag-presence set is; the tags only contribute the narrative header lines
prepended to the evidence log. -/
theorem C9_single_lineage_ignores_animal_tags (markers : List Marker)
    (snps : List Variant) (sid lab name : String)
    (hlin : (getLineageDetail markers snps).prevlin = [lab])
    (hsub : (getLineageDetail markers snps).prevsub = [])
    (hname : tribe_map lab = some name) :
    verdictOf markers snps sid = some [sid, lab, name] ∧
    textOf markers snps sid = some
      (animalHeaderLines (computeTags snps) ++
        (getLineageDetail markers snps).text ++ [s!"Lineage: {lab} {name}"]) := by
  have hok := getLineageDetail_ok markers snps
  have hsublin : (getLineageDetail markers snps).sublin = "" := by
    rw [hok.1, hsub]
    rfl
  have hres : resolve sid (getLineageDetail markers snps).sublin
      (getLineageDetail markers snps).prevlin
      (getLineageDetail markers snps).prevsub (computeTags snps) =
      some ([[sid, lab, name]], [s!"Lineage: {lab} {name}"]) := by
    rw [hsublin, hlin, hsub, resolve_single_nosub]
    simp [report_prevlin, hname]
  have hp := parse_lineage_eq markers snps sid _ _ hres
  exact ⟨by simp [verdictOf, hp], by simp [textOf, hp]⟩

/-- Claim C9, witness: lineage-4 evidence plus the BCG animal-tag position
8624 among the observed variants; the verdict is still "4 Euro-American"
and the BCG tag shows up only in the narrative header. -/
theorem C9_witness :
    verdictOf [Marker.mk "100" "4" "A"]
      [Variant.mk "100" "A", Variant.mk "8624" "G"] "S" =
      some ["S", "4", "Euro-American"] ∧
    textOf [Marker.mk "100" "4" "A"]
      [Variant.mk "100" "A", Variant.mk "8624" "G"] "S" = some
      (animalHeaderLines (computeTags [Variant.mk "100" "A", Variant.mk "8624" "G"]) ++
        (getLineageDetail [Marker.mk "100" "4" "A"]
          [Variant.mk "100" "A", Variant.mk "8624" "G"]).text ++
        ["Lineage: 4 Euro-American"]) :=
  C9_single_lineage_ignores_animal_tags [Marker.mk "100" "4" "A"]
    [Variant.mk "100" "A", Variant.mk "8624" "G"] "S" "4" "Euro-American"
    (by decide) (by decide) (by decide)

/-- Claim C10: the classifier is a pure function of the marker table, the
variant table and the sample identifier — two runs on equal inputs yield
byte-identical serialized verdict and narrative files.  The embedding
fixes all iteration to input table order (Python dictionaries preserve
insertion order), so no hidden state or ordering dependence exists. -/
theorem C10_deterministic (m1 m2 : List Marker) (s1 s2 : List Variant)
    (i1 i2 : String) (hm : m1 = m2) (hs : s1 = s2) (hi : i1 = i2) :
    (parse_lineage m1 s1 i1).map (fun p => (renderTsv p.1, renderText p.2)) =
      (parse_lineage m2 s2 i2).map (fun p => (renderTsv p.1, renderText p.2)) := by
  rw [hm, hs, hi]

/-- Claim C10, witness at a concrete input. -/
theorem C10_witness :
    (parse_lineage [Marker.mk "100" "4" "A"] [Variant.mk "100" "A"] "S").map
      (fun p => (renderTsv p.1, renderText p.2)) =
      (parse_lineage [Marker.mk "100" "4" "A"] [Variant.mk "100" "A"] "S").map
        (fun p => (renderTsv p.1, renderText p.2)) :=
  C10_deterministic [Marker.mk "100" "4" "A"] [Marker.mk "100" "4" "A"]
    [Variant.mk "100" "A"] [Variant.mk "100" "A"] "S" "S" rfl rfl rfl

/-- Claim C1, counterexample: exactly one lineage label "4" is evidenced,
no animal tag is present, and a discordant sublineage label "5.1" is
evidenced alongside; the verdict is "mixed lineage(s)", not "4" — in
`_report_tribe` discordance does downgrade the single-lineage call. -/
theorem C1_counterexample :
    (getLineageDetail [Marker.mk "100" "4" "A", Marker.mk "200" "5.1" "C"]
      [Variant.mk "100" "A", Variant.mk "200" "C"]).prevlin = ["4"] ∧
    animalsOf (computeTags [Variant.mk "100" "A", Variant.mk "200" "C"]) = false ∧
    verdictOf [Marker.mk "100" "4" "A", Marker.mk "200" "5.1" "C"]
      [Variant.mk "100" "A", Variant.mk "200" "C"] "S" =
      some ["S", "mixed lineage(s)", "mixed lineage(s)"] := by
  refine ⟨by decide, by decide, by decide⟩

/-- Claim C1, amended: with exactly one lineage label evidenced and no
animal tag, the verdict's lineage code equals that label when every
sublineage label alongside is concordant (first component equal to the
label); when some sublineage label is discordant the verdict is instead
the indeterminate "mixed lineage(s)" outcome. -/
theorem C1_single_lineage (markers : List Marker) (snps : List Variant)
    (sid lab name : String)
    (hlin : (getLineageDetail markers snps).prevlin = [lab])
    (hanim : animalsOf (computeTags snps) = false)
    (hname : tribe_map lab = some name) :
    ((∀ sub ∈ (getLineageDetail markers snps).prevsub, firstComp sub = lab) →
      verdictOf markers snps sid = some [sid, lab, name]) ∧
    ((∃ sub ∈ (getLineageDetail markers snps).prevsub, firstComp sub ≠ lab) →
      verdictOf markers snps sid =
        some [sid, "mixed lineage(s)", "mixed lineage(s)"]) := by
  have hok := getLineageDetail_ok markers snps
  constructor
  · intro hconc
    cases hps : (getLineageDetail markers snps).prevsub with
    | nil =>
      have hsublin : (getLineageDetail markers snps).sublin = "" := by
        rw [hok.1, hps]
        rfl
      have hres : resolve sid (getLineageDetail markers snps).sublin
          (getLineageDetail markers snps).prevlin
          (getLineageDetail markers snps).prevsub (computeTags snps) =
          some ([[sid, lab, name]], [s!"Lineage: {lab} {name}"]) := by
        rw [hsublin, hlin, hps, resolve_single_nosub]
        simp [report_prevlin, hname]
      have hp := parse_lineage_eq markers snps sid _ _ hres
      simp [verdictOf, hp]
    | cons p ps =>
      have hmem : (getLineageDetail markers snps).sublin ∈
          (getLineageDetail markers snps).prevsub := by
        rw [hok.1, hps]
        exact maxByLen_mem _ (by simp)
      have hlen : 1 < (getLineageDetail markers snps).sublin.length :=
        hok.2.1 _ hmem
      have hne : (getLineageDetail markers snps).sublin ≠ "" := by
        intro h
        rw [h] at hlen
        simp at hlen
      have hf : (splitDot (getLineageDetail markers snps).sublin)[0]? =
          some lab := by
        rw [get0_of_ne_nil _ (splitDot_ne_nil _)]
        exact congrArg some (hconc _ hmem)
      have hcheck : check_sublin_discordance [lab]
          (splitDot (getLineageDetail markers snps).sublin)
          (getLineageDetail markers snps).prevsub = some false :=
        check_sublin_false lab _ _ hf fun s hs => by
          rw [get0_of_ne_nil _ (splitDot_ne_nil _)]
          exact congrArg some (hconc s hs)
      rw [hps] at hcheck
      have hres : resolve sid (getLineageDetail markers snps).sublin
          (getLineageDetail markers snps).prevlin
          (getLineageDetail markers snps).prevsub (computeTags snps) =
          some ([[sid, lab, name]], [s!"Lineage: {lab} {name}"]) := by
        rw [hlin, hps, resolve_single_sub sid _ lab p ps _ hne, hcheck]
        simp [report_tribe, hanim, hname, hf]
      have hp := parse_lineage_eq markers snps sid _ _ hres
      simp [verdictOf, hp]
  · intro hdisc
    obtain ⟨s0, hs0, hne0⟩ := hdisc
    have hpsne : (getLineageDetail markers snps).prevsub ≠ [] := by
      intro h
      rw [h] at hs0
      simp at hs0
    obtain ⟨p, ps, hps⟩ := List.exists_cons_of_ne_nil hpsne
    have hmem : (getLineageDetail markers snps).sublin ∈
        (getLineageDetail markers snps).prevsub := by
      rw [hok.1, hps]
      exact maxByLen_mem _ (by simp)
    have hlen : 1 < (getLineageDetail markers snps).sublin.length :=
      hok.2.1 _ hmem
    have hne : (getLineageDetail markers snps).sublin ≠ "" := by
      intro h
      rw [h] at hlen
      simp at hlen
    have hcheck : check_sublin_discordance [lab]
        (splitDot (getLineageDetail markers snps).sublin)
        (getLineageDetail markers snps).prevsub = some true :=
      check_sublin_true lab _ _
        ⟨_, get0_of_ne_nil _ (splitDot_ne_nil _)⟩ ⟨s0, hs0, hne0⟩
    rw [hps] at hcheck
    have hres : resolve sid (getLineageDetail markers snps).sublin
        (getLineageDetail markers snps).prevlin
        (getLineageDetail markers snps).prevsub (computeTags snps) =
        some ([[sid, "mixed lineage(s)", "mixed lineage(s)"]],
          ["no precise lineage inferred"]) := by
      rw [hlin, hps, resolve_single_sub sid _ lab p ps _ hne, hcheck]
      simp [report_tribe, report_mixed_lineage]
    have hp := parse_lineage_eq markers snps sid _ _ hres
    simp [verdictOf, hp]

/-- Claim C1, witness for the amended theorem: lineage "4" with concordant
sublineage "4.3.3" yields the "4 Euro-American" verdict. -/
theorem C1_witness :
    verdictOf [Marker.mk "100" "4" "A", Marker.mk "200" "4.3.3" "C"]
      [Variant.mk "100" "A", Variant.mk "200" "C"] "S" =
      some ["S", "4", "Euro-American"] :=
  (C1_single_lineage [Marker.mk "100" "4" "A", Marker.mk "200" "4.3.3" "C"]
    [Variant.mk "100" "A", Variant.mk "200" "C"] "S" "4" "Euro-American"
    (by decide) (by decide) (by decide)).1 (by decide)

/-- Claim C4, counterexample: the label "10" has exactly one hierarchy
level (its dot-split has a single component), yet a matched marker
carrying it is recorded as sublineage evidence, because the code tests
`len(lineage) > 1` on the character length, not the hierarchy depth. -/
theorem C4_counterexample :
    (splitDot "10").length = 1 ∧
    (getLineageDetail [Marker.mk "100" "10" "A"]
      [Variant.mk "100" "A"]).prevsub = ["10"] ∧
    (getLineageDetail [Marker.mk "100" "10" "A"]
      [Variant.mk "100" "A"]).prevlin = [] := by
  refine ⟨by decide, by decide, by decide⟩

/-- Claim C4, amended: for every matched marker the evidence kind is
decided by the character length of the label — length greater than one is
recorded as sublineage evidence, length at most one as lineage evidence
(this coincides with hierarchy depth only for single-character top-level
labels). -/
theorem C4_label_length (markers : List Marker) (snps : List Variant)
    (v : Variant) (m : Marker)
    (hm : positionLookup markers v.pos = some m) (ha : m.alt = v.alt) :
    (1 < m.lineage.length →
      (getLineageDetail markers (snps ++ [v])).prevsub =
        (getLineageDetail markers snps).prevsub ++ [m.lineage] ∧
      (getLineageDetail markers (snps ++ [v])).prevlin =
        (getLineageDetail markers snps).prevlin) ∧
    (m.lineage.length ≤ 1 →
      (getLineageDetail markers (snps ++ [v])).prevlin =
        (getLineageDetail markers snps).prevlin ++ [m.lineage] ∧
      (getLineageDetail markers (snps ++ [v])).prevsub =
        (getLineageDetail markers snps).prevsub) := by
  have hfold : getLineageDetail markers (snps ++ [v]) =
      detailStep markers (getLineageDetail markers snps) v := by
    unfold getLineageDetail
    rw [List.foldl_append]
    rfl
  have halt : (m.alt == v.alt) = true := by simp [ha]
  constructor
  · intro hlen
    rw [hfold]
    unfold detailStep
    rw [hm]
    simp [halt, hlen]
  · intro hlen
    have hnot : ¬1 < m.lineage.length := by omega
    rw [hfold]
    unfold detailStep
    rw [hm]
    simp [halt, hnot]

/-- Claim C4, witness for the amended theorem: the two-level label "4.3"
(length above one) lands in the sublineage evidence. -/
theorem C4_witness :
    (getLineageDetail [Marker.mk "100" "4.3" "A"]
      ([] ++ [Variant.mk "100" "A"])).prevsub =
      (getLineageDetail [Marker.mk "100" "4.3" "A"] []).prevsub ++ ["4.3"] ∧
    (getLineageDetail [Marker.mk "100" "4.3" "A"]
      ([] ++ [Variant.mk "100" "A"])).prevlin =
      (getLineageDetail [Marker.mk "100" "4.3" "A"] []).prevlin :=
  (C4_label_length [Marker.mk "100" "4.3" "A"] [] (Variant.mk "100" "A")
    (Marker.mk "100" "4.3" "A") rfl rfl).1 (by decide)

/-- Claim C5: with two or more lineage labels evidenced, if some label
differs from the first the verdict is the indeterminate "mixed
lineage(s)" outcome and the narrative ends with the multi-discordance
line; if all the labels are identical, the verdict is that label's
lineage call. -/
theorem C5_multiple_lineage (markers : List Marker) (snps : List Variant)
    (sid lab : String) (rest : List String)
    (hlin : (getLineageDetail markers snps).prevlin = lab :: rest)
    (hr : rest ≠ []) :
    ((lab :: rest).any (fun l => lab != l) = true →
      verdictOf markers snps sid =
        some [sid, "mixed lineage(s)", "mixed lineage(s)"] ∧
      ∃ pre, textOf markers snps sid = some
        (pre ++ ["no concordance between predicted lineage and sublineage(s)"])) ∧
    (∀ name, (lab :: rest).all (fun l => lab == l) = true →
      tribe_map lab = some name →
      verdictOf markers snps sid = some [sid, lab, name]) := by
  obtain ⟨l2, rest2, rfl⟩ := List.exists_cons_of_ne_nil hr
  constructor
  · intro hany
    have hdisc : check_multiple_discordance (lab :: l2 :: rest2) = true := by
      simpa [check_multiple_discordance] using hany
    have hres : resolve sid (getLineageDetail markers snps).sublin
        (getLineageDetail markers snps).prevlin
        (getLineageDetail markers snps).prevsub (computeTags snps) =
        some ([[sid, "mixed lineage(s)", "mixed lineage(s)"]],
          ["no concordance between predicted lineage and sublineage(s)"]) := by
      rw [hlin, resolve_multi]
      simp [report_multiple_prevlin, hdisc]
    have hp := parse_lineage_eq markers snps sid _ _ hres
    refine ⟨by simp [verdictOf, hp], ?_⟩
    exact ⟨animalHeaderLines (computeTags snps) ++
      (getLineageDetail markers snps).text, by simp [textOf, hp]⟩
  · intro name hall hname
    have hdisc : check_multiple_discordance (lab :: l2 :: rest2) = false := by
      simp only [check_multiple_discordance, List.any_eq_false]
      intro x hx
      simpa using List.all_eq_true.mp hall x hx
    have hres : resolve sid (getLineageDetail markers snps).sublin
        (getLineageDetail markers snps).prevlin
        (getLineageDetail markers snps).prevsub (computeTags snps) =
        some ([[sid, lab, name]], [s!"Lineage: {lab} {name}"]) := by
      rw [hlin, resolve_multi]
      simp [report_multiple_prevlin, hdisc, report_prevlin, hname]
    have hp := parse_lineage_eq markers snps sid _ _ hres
    simp [verdictOf, hp]

/-- Claim C5, witness: distinct lineage labels "2" and "4" yield the
indeterminate verdict with its narrative line. -/
theorem C5_witness :
    verdictOf [Marker.mk "100" "2" "A", Marker.mk "200" "4" "C"]
      [Variant.mk "100" "A", Variant.mk "200" "C"] "S" =
      some ["S", "mixed lineage(s)", "mixed lineage(s)"] ∧
    ∃ pre, textOf [Marker.mk "100" "2" "A", Marker.mk "200" "4" "C"]
      [Variant.mk "100" "A", Variant.mk "200" "C"] "S" = some
      (pre ++ ["no concordance between predicted lineage and sublineage(s)"]) :=
  (C5_multiple_lineage [Marker.mk "100" "2" "A", Marker.mk "200" "4" "C"]
    [Variant.mk "100" "A", Variant.mk "200" "C"] "S" "2" ["4"]
    (by decide) (by decide)).1 (by decide)

/-- Claim C7: a variant whose position is absent from the marker table, or
present with a mismatched expected allele, contributes no evidence and no
narrative line — the extraction state is unchanged. -/
theorem C7_no_evidence_on_mismatch (markers : List Marker)
    (snps : List Variant) (d : Detail) (v : Variant)
    (h : ∀ m, positionLookup markers v.pos = some m → ¬m.alt = v.alt) :
    detailStep markers d v = d ∧
    getLineageDetail markers (snps ++ [v]) = getLineageDetail markers snps := by
  have hstep : ∀ d' : Detail, detailStep markers d' v = d' := by
    intro d'
    unfold detailStep
    cases hm : positionLookup markers v.pos with
    | none => rfl
    | some m =>
      have hne : (m.alt == v.alt) = false := by
        simpa using h m hm
      simp [hne]
  refine ⟨hstep d, ?_⟩
  unfold getLineageDetail
  rw [List.foldl_append]
  simp [hstep]

/-- Claim C7, witness: position 100 is in both tables but the observed
allele "T" mismatches the expected allele "A"; nothing is recorded. -/
theorem C7_witness :
    detailStep [Marker.mk "100" "4" "A"] ⟨"", [], [], []⟩
      (Variant.mk "100" "T") = ⟨"", [], [], []⟩ ∧
    getLineageDetail [Marker.mk "100" "4" "A"] ([] ++ [Variant.mk "100" "T"]) =
      getLineageDetail [Marker.mk "100" "4" "A"] [] :=
  C7_no_evidence_on_mismatch [Marker.mk "100" "4" "A"] [] ⟨"", [], [], []⟩
    (Variant.mk "100" "T")
    (by
      intro m hm
      rw [show positionLookup [Marker.mk "100" "4" "A"]
        (Variant.mk "100" "T").pos = some (Marker.mk "100" "4" "A") from rfl] at hm
      injection hm with h2
      subst h2
      decide)

/-- Claim C6, counterexample: in `_check_sublin_discordance` only the
first hierarchy components are compared, so the labels "4.3.1" and
"4.2.1" (differing in their second components) are treated as concordant
there, and the corresponding input still yields the clean lineage-4
verdict instead of a discordance downgrade. -/
theorem C6_counterexample :
    check_sublin_discordance ["4"] (splitDot "4.3.1") ["4.3.1", "4.2.1"] =
      some false ∧
    verdictOf
      [Marker.mk "100" "4" "A", Marker.mk "200" "4.3.1" "C",
        Marker.mk "300" "4.2.1" "G"]
      [Variant.mk "100" "A", Variant.mk "200" "C", Variant.mk "300" "G"] "S" =
      some ["S", "4", "Euro-American"] := by
  refine ⟨by decide, by decide⟩

/-- Claim C6, amended: the pairwise test of `_check_discordance` compares
the first two dot-separated components and is symmetric (so "4.3.1" and
"4.3.2" are concordant while "4.3.1" and "4.2.1" are discordant), whereas
`_check_sublin_discordance` compares first components only, under which
"4.3.1" and "4.2.1" are concordant. -/
theorem C6_discordance_comparison (x y : List String) :
    pair_discordant x y = pair_discordant y x ∧
    pair_discordant (splitDot "4.3.1") (splitDot "4.3.2") = some false ∧
    pair_discordant (splitDot "4.3.1") (splitDot "4.2.1") = some true ∧
    check_sublin_discordance ["4"] (splitDot "4.3.1") ["4.3.1", "4.2.1"] =
      some false := by
  refine ⟨?_, by decide, by decide, by decide⟩
  cases x with
  | nil =>
    cases y with
    | nil => rfl
    | cons c ys => rfl
  | cons a xs =>
    cases y with
    | nil => rfl
    | cons c ys =>
      by_cases hac : a = c
      · subst hac
        simp only [pair_discordant, ne_eq, not_true_eq_false, if_false]
        cases xs with
        | nil =>
          cases ys with
          | nil => rfl
          | cons d t => rfl
        | cons b t =>
          cases ys with
          | nil => rfl
          | cons d t2 =>
            show some (decide ¬b = d) = some (decide ¬d = b)
            congr 1
            rw [decide_eq_decide]
            exact ne_comm
      · have hca : ¬c = a := fun h => hac h.symm
        simp [pair_discordant, hac, hca]

/-- Claim C3, counterexample: a sublineage-evidence label without a dot
("77", character length two).  `_check_discordance` evaluates
`split_lin[1]` on it, so the run raises `IndexError` and produces no
verdict at all: the resolver is not total. -/
theorem C3_counterexample :
    (getLineageDetail [Marker.mk "400" "77" "A"]
      [Variant.mk "400" "A"]).prevsub = ["77"] ∧
    parse_lineage [Marker.mk "400" "77" "A"] [Variant.mk "400" "A"] "S" =
      none := by
  refine ⟨by decide, by decide⟩

/-- The resolver on an empty lineage-evidence list (branch 1). -/
theorem resolve_nil (sid sublin : String) (prevsub : List String) (t : Tags) :
    resolve sid sublin [] prevsub t =
      match check_discordance sublin prevsub with
      | none => none
      | some (disc, sf) =>
        if 1 < sf.length then
          match sf[0]? with
          | none => none
          | some tribe => report_tribe sid tribe disc (animalsOf t) sf
        else if !t.linfour then some (report_linfour sid (animalsOf t) t.hrv37)
        else some (report_animals sid t) := rfl

/-- The resolver on a single lineage label when the deepest sublineage
candidate is the empty string defers to `_report_prevlin` whatever
`prevsub` is. -/
theorem resolve_single_empty_sublin (sid lab : String)
    (prevsub : List String) (t : Tags) :
    resolve sid "" [lab] prevsub t = report_prevlin sid [lab] := by
  simp [resolve]

/-- Every list with at least two elements has a two-cons prefix. -/
theorem exists_two (l : List String) (h : 2 ≤ l.length) :
    ∃ a b t, l = a :: b :: t := by
  cases l with
  | nil => simp at h
  | cons a l2 =>
    cases l2 with
    | nil => simp at h
    | cons b t => exact ⟨a, b, t, rfl⟩

/-- When every label splits into at least two components, the loop of
`_check_discordance` terminates without raising. -/
theorem discord_loop_isSome (split_first : List String) (subs : List String)
    (hf : 2 ≤ split_first.length)
    (hs : ∀ s ∈ subs, 2 ≤ (splitDot s).length) :
    ∃ b, discord_loop split_first subs = some b := by
  induction subs with
  | nil => exact ⟨false, rfl⟩
  | cons sub rest ih =>
    obtain ⟨a, b', ta, hsa⟩ := exists_two _ (hs sub (List.mem_cons_self sub rest))
    obtain ⟨c, d', tc, hsc⟩ := exists_two _ hf
    have hpair : ∃ pb, pair_discordant (splitDot sub) split_first = some pb := by
      rw [hsa, hsc]
      by_cases hac : a = c
      · subst hac
        refine ⟨decide ¬b' = d', ?_⟩
        simp [pair_discordant]
      · exact ⟨true, by simp [pair_discordant, hac]⟩
    obtain ⟨pb, hpair⟩ := hpair
    cases pb with
    | false =>
      obtain ⟨b2, hb2⟩ := ih fun s hs' => hs s (List.mem_cons_of_mem sub hs')
      exact ⟨b2, by simp [discord_loop, hpair, hb2]⟩
    | true => exact ⟨true, by simp [discord_loop, hpair]⟩

/-- `_check_sublin_discordance` never raises when the split candidate is
nonempty. -/
theorem check_sublin_isSome (lab : String) (split_first subs : List String)
    (hf : split_first ≠ []) :
    ∃ b, check_sublin_discordance [lab] split_first subs = some b := by
  induction subs with
  | nil => exact ⟨false, rfl⟩
  | cons sub rest ih =>
    have h0 := get0_of_ne_nil _ (splitDot_ne_nil sub)
    have hf0 := get0_of_ne_nil _ hf
    obtain ⟨b, hb⟩ := ih
    by_cases h1 : (splitDot sub).headI = lab
    · by_cases h2 : (splitDot sub).headI = split_first.headI
      · refine ⟨b, ?_⟩
        simp only [check_sublin_discordance, h0, hf0, List.getElem?_cons_zero]
        rw [if_neg (by simp [h1]), if_neg (by simp [h2])]
        exact hb
      · refine ⟨true, ?_⟩
        simp only [check_sublin_discordance, h0, hf0, List.getElem?_cons_zero]
        rw [if_neg (by simp [h1]), if_pos h2]
    · refine ⟨true, ?_⟩
      simp only [check_sublin_discordance, h0, List.getElem?_cons_zero]
      rw [if_pos h1]

/-- `_report_linfour` appends exactly one verdict row. -/
theorem report_linfour_one_row (sid : String) (a h : Bool) :
    (report_linfour sid a h).1.length = 1 := by
  cases a <;> simp [report_linfour, report_mixed_lineage]

/-- `_report_animals` appends exactly one verdict row. -/
theorem report_animals_one_row (sid : String) (t : Tags) :
    (report_animals sid t).1.length = 1 := by
  rcases t with ⟨l, h, b1, b2, b3, b4⟩
  unfold report_animals
  cases b1 <;> cases b2 <;> cases b3 <;> cases b4 <;> rfl

/-- `_report_tribe` produces exactly one verdict row when the reported
key has a display name (or a discordance or animal flag short-circuits
into the mixed verdict). -/
theorem report_tribe_one_row (sid tribe : String) (disc animals : Bool)
    (sf : List String) (hname : (tribe_map tribe).isSome) (hsf : sf ≠ []) :
    ∃ rows text, report_tribe sid tribe disc animals sf = some (rows, text) ∧
      rows.length = 1 := by
  by_cases hda : (disc || animals) = true
  · refine ⟨[[sid, "mixed lineage(s)", "mixed lineage(s)"]],
      ["no precise lineage inferred"], ?_, rfl⟩
    simp [report_tribe, hda, report_mixed_lineage]
  · obtain ⟨name, hn⟩ := Option.isSome_iff_exists.mp hname
    refine ⟨[[sid, sf.headI, name]], [s!"Lineage: {tribe} {name}"], ?_, rfl⟩
    simp [report_tribe, hda, hn, get0_of_ne_nil _ hsf]

/-- Claim C3, amended: the resolver terminates without raising and appends
exactly one verdict record on every evidence shape in which each
sublineage label has at least two dot-separated components and each
display-name lookup it performs is defined (labels "1" to "7"); outside
those conditions a run can raise (IndexError on a dotless sublineage
label, KeyError on an unmapped lineage key) and produce no verdict. -/
theorem C3_resolver_total (sid sublin : String) (prevlin prevsub : List String)
    (t : Tags)
    (hsub : ∀ s ∈ prevsub, 2 ≤ (splitDot s).length)
    (hmax : sublin = maxByLen prevsub)
    (hlin : ∀ l ∈ prevlin, (tribe_map l).isSome)
    (htribe : prevsub ≠ [] → (tribe_map (firstComp sublin)).isSome) :
    ∃ rows text, resolve sid sublin prevlin prevsub t = some (rows, text) ∧
      rows.length = 1 := by
  cases prevlin with
  | nil =>
    cases prevsub with
    | nil =>
      have hs0 : sublin = "" := hmax
      subst hs0
      rw [resolve_nil]
      have hcd : check_discordance "" [] = some (false, [""]) := rfl
      rw [hcd]
      cases hlf : t.linfour with
      | false =>
        refine ⟨(report_linfour sid (animalsOf t) t.hrv37).1,
          (report_linfour sid (animalsOf t) t.hrv37).2, ?_,
          report_linfour_one_row sid (animalsOf t) t.hrv37⟩
        simp [hlf]
      | true =>
        refine ⟨(report_animals sid t).1, (report_animals sid t).2, ?_,
          report_animals_one_row sid t⟩
        simp [hlf]
    | cons p ps =>
      have hmem : sublin ∈ p :: ps := by
        rw [hmax]
        exact maxByLen_mem _ (by simp)
      have hflen : 2 ≤ (splitDot sublin).length := hsub _ hmem
      obtain ⟨b, hb⟩ := discord_loop_isSome (splitDot sublin) (p :: ps) hflen hsub
      have hcd : check_discordance sublin (p :: ps) =
          some (b, splitDot sublin) := by
        simp [check_discordance, hb]
      obtain ⟨rows, text, hrt, hlen1⟩ :=
        report_tribe_one_row sid (firstComp sublin) b (animalsOf t)
          (splitDot sublin) (htribe (by simp)) (splitDot_ne_nil sublin)
      refine ⟨rows, text, ?_, hlen1⟩
      rw [resolve_nil, hcd]
      have h1l : 1 < (splitDot sublin).length := by omega
      simp only [h1l, if_true, get0_of_ne_nil _ (splitDot_ne_nil sublin)]
      exact hrt
  | cons lab rest =>
    cases rest with
    | nil =>
      by_cases hs0 : sublin = ""
      · subst hs0
        obtain ⟨name, hn⟩ := Option.isSome_iff_exists.mp
          (hlin lab (List.mem_cons_self lab []))
        refine ⟨[[sid, lab, name]], [s!"Lineage: {lab} {name}"], ?_, rfl⟩
        rw [resolve_single_empty_sublin]
        simp [report_prevlin, hn]
      · have hpsne : prevsub ≠ [] := by
          intro h
          rw [h] at hmax
          exact hs0 hmax
        obtain ⟨p, ps, rfl⟩ := List.exists_cons_of_ne_nil hpsne
        obtain ⟨b, hb⟩ := check_sublin_isSome lab (splitDot sublin) (p :: ps)
          (splitDot_ne_nil sublin)
        obtain ⟨rows, text, hrt, hlen1⟩ :=
          report_tribe_one_row sid lab b (animalsOf t) (splitDot sublin)
            (hlin lab (List.mem_cons_self lab [])) (splitDot_ne_nil sublin)
        refine ⟨rows, text, ?_, hlen1⟩
        rw [resolve_single_sub sid sublin lab p ps t hs0, hb]
        exact hrt
    | cons l2 rest2 =>
      rw [resolve_multi]
      cases hd : check_multiple_discordance (lab :: l2 :: rest2) with
      | true =>
        refine ⟨[[sid, "mixed lineage(s)", "mixed lineage(s)"]],
          ["no concordance between predicted lineage and sublineage(s)"], ?_, rfl⟩
        simp [report_multiple_prevlin, hd]
      | false =>
        obtain ⟨name, hn⟩ := Option.isSome_iff_exists.mp
          (hlin lab (List.mem_cons_self lab (l2 :: rest2)))
        refine ⟨[[sid, lab, name]], [s!"Lineage: {lab} {name}"], ?_, rfl⟩
        simp [report_multiple_prevlin, report_prevlin, hd, hn]

/-- Claim C3, witness for the amended theorem at a concrete evidence
shape. -/
theorem C3_witness :
    ∃ rows text, resolve "S" "4.3" [] ["4.3"] noTags = some (rows, text) ∧
      rows.length = 1 :=
  C3_resolver_total "S" "4.3" [] ["4.3"] noTags (by decide) (by decide)
    (by decide) (by decide)

end LineageParser
